import Mathlib

/-
Verification of the WebSocket connection-pool and stream-decode layer
(`src/packages/ai/src/providers/openai-websocket.ts`).

The embedding models:
* the process-wide session cache, idle-expiry timers and the
  `acquireWebSocket` / `release` protocol as explicit state passing over a
  `PoolWorld` record (JS `Map`s become association lists, `setTimeout`
  handles become timer ids, socket objects become socket ids);
* the settle-once race inside `connectWebSocket` as a state machine over
  the four listeners;
* the `parseWebSocket` async generator as a small-step system: the
  synchronous error/close/abort handlers run atomically on a `DecSt`
  record; a frame is two steps — delivery (its payload decode becomes
  pending) and decode completion (parse, flags, push), reflecting the
  `await` inside the message handler's async body — and the drain loop is
  an explicit consumer that interleaves with all of these.
-/

set_option autoImplicit false

namespace PiMono

/-! ## Association-list helpers (model of JS `Map`) -/

def assocGet {α β : Type} [DecidableEq α] (k : α) : List (α × β) → Option β
  | [] => none
  | (k', v) :: rest => if k' = k then some v else assocGet k rest

def assocSet {α β : Type} [DecidableEq α] (k : α) (v : β) : List (α × β) → List (α × β)
  | [] => [(k, v)]
  | (k', v') :: rest => if k' = k then (k, v) :: rest else (k', v') :: assocSet k v rest

def assocRemove {α β : Type} [DecidableEq α] (k : α) : List (α × β) → List (α × β)
  | [] => []
  | (k', v') :: rest => if k' = k then assocRemove k rest else (k', v') :: assocRemove k rest

theorem assocGet_set_self {α β : Type} [DecidableEq α] (k : α) (v : β) (l : List (α × β)) :
    assocGet k (assocSet k v l) = some v := by
  induction l with
  | nil => simp [assocGet, assocSet]
  | cons p rest ih =>
    obtain ⟨k', v'⟩ := p
    by_cases h : k' = k <;> simp [assocGet, assocSet, h, ih]

theorem assocGet_set_ne {α β : Type} [DecidableEq α] (k k' : α) (v : β) (l : List (α × β))
    (h : k' ≠ k) : assocGet k (assocSet k' v l) = assocGet k l := by
  induction l with
  | nil => simp [assocGet, assocSet, h]
  | cons p rest ih =>
    obtain ⟨k'', v''⟩ := p
    by_cases h2 : k'' = k' <;> by_cases h3 : k'' = k <;>
      simp_all [assocGet, assocSet]

theorem assocGet_remove_self {α β : Type} [DecidableEq α] (k : α) (l : List (α × β)) :
    assocGet k (assocRemove k l) = none := by
  induction l with
  | nil => simp [assocGet, assocRemove]
  | cons p rest ih =>
    obtain ⟨k', v'⟩ := p
    by_cases h : k' = k <;> simp [assocGet, assocRemove, h, ih]

theorem assocGet_remove_ne {α β : Type} [DecidableEq α] (k k' : α) (l : List (α × β))
    (h : k' ≠ k) : assocGet k (assocRemove k' l) = assocGet k l := by
  induction l with
  | nil => simp [assocGet, assocRemove]
  | cons p rest ih =>
    obtain ⟨k'', v''⟩ := p
    by_cases h2 : k'' = k' <;> by_cases h3 : k'' = k <;>
      simp_all [assocGet, assocRemove]

/-! ## Error extraction helpers

`extractWebSocketError` / `extractWebSocketCloseError` build `Error` values
from transport events; we model an `Error` by its message string, and an
event by the fields the source inspects (`message` is `some s` exactly when
the event object carries a string `message`; `code` / `reason` likewise). -/

structure WSErrorEvent where
  message : Option String
deriving DecidableEq

structure WSCloseEvent where
  code : Option Int
  reason : Option String
deriving DecidableEq

def extractWebSocketError (e : WSErrorEvent) : String :=
  match e.message with
  | some m => if m.length > 0 then m else "WebSocket error"
  | none => "WebSocket error"

/-- Executable model of JS `String.prototype.trim` (drop leading and
trailing whitespace), written over the character list so that it reduces in
the kernel. -/
def strTrim (s : String) : String :=
  ⟨(((s.data.dropWhile Char.isWhitespace).reverse).dropWhile Char.isWhitespace).reverse⟩

def extractWebSocketCloseError (e : WSCloseEvent) : String :=
  let codeText := match e.code with
    | some c => " " ++ toString c
    | none => ""
  let reasonText := match e.reason with
    | some r => if r.length > 0 then " " ++ r else ""
    | none => ""
  strTrim ("WebSocket closed" ++ codeText ++ reasonText)

/-! ## Connection pool world

Sockets are identified by `Nat` ids; a socket's `readyState` is `none` when
the runtime does not expose a numeric `readyState` (the source then assumes
the socket is open).  Cache entries are identified by `Nat` ids so that the
JS reference equality `websocketSessionCache.get(sessionId) === entry` can
be expressed; the `entries` store keeps every entry object ever created
(closures keep entries alive after cache eviction).  Active `setTimeout`
handles live in `timers`; `clearTimeout` removes a handle, and a fired or
cleared handle is gone.  Every `socket.close(code, reason)` call is logged
in `closeCalls`. -/

structure SockState where
  readyState : Option Int
deriving DecidableEq

structure PoolEntry where
  socket : Nat
  busy : Bool
  idleTimer : Option Nat
deriving DecidableEq

structure PoolWorld where
  nextSock : Nat
  nextEntry : Nat
  nextTimer : Nat
  socks : List (Nat × SockState)
  entries : List (Nat × PoolEntry)
  cache : List (String × Nat)
  timers : List (Nat × (String × Nat))
  closeCalls : List (Nat × Int × String)
deriving DecidableEq

def initWorld : PoolWorld := ⟨0, 0, 0, [], [], [], [], []⟩

def getWebSocketReadyState (w : PoolWorld) (sock : Nat) : Option Int :=
  match assocGet sock w.socks with
  | none => none
  | some st => st.readyState

def isWebSocketReusable (w : PoolWorld) (sock : Nat) : Bool :=
  match getWebSocketReadyState w sock with
  | none => true
  | some r => r == 1

def closeWebSocketSilently (w : PoolWorld) (sock : Nat) (code : Int) (reason : String) :
    PoolWorld :=
  {w with closeCalls := w.closeCalls ++ [(sock, code, reason)]}

def socketClosed (w : PoolWorld) (sock : Nat) : Bool :=
  w.closeCalls.any (fun c => c.1 == sock)

def clearTimeout (w : PoolWorld) (t : Nat) : PoolWorld :=
  {w with timers := assocRemove t w.timers}

def scheduleSessionWebSocketExpiry (sessionId : String) (eId : Nat) (w : PoolWorld) :
    PoolWorld :=
  match assocGet eId w.entries with
  | none => w
  | some entry =>
    let w1 := match entry.idleTimer with
      | some t => clearTimeout w t
      | none => w
    let tid := w1.nextTimer
    {w1 with
      nextTimer := tid + 1,
      timers := assocSet tid (sessionId, eId) w1.timers,
      entries := assocSet eId {entry with idleTimer := some tid} w1.entries}

/-- The `setTimeout` callback installed by `scheduleSessionWebSocketExpiry`:
if the timer is still pending, it fires once (and is spent); the callback
returns early when the entry is busy, otherwise closes the socket silently
with code 1000 / reason "idle_timeout" and deletes the session's cache key. -/
def fireIdleTimer (w : PoolWorld) (t : Nat) : PoolWorld :=
  match assocGet t w.timers with
  | none => w
  | some info =>
    let w1 := clearTimeout w t
    match assocGet info.2 w1.entries with
    | none => w1
    | some entry =>
      if entry.busy then w1
      else
        let w2 := closeWebSocketSilently w1 entry.socket 1000 "idle_timeout"
        {w2 with cache := assocRemove info.1 w2.cache}

/-- Successful `connectWebSocket`: allocates a fresh socket whose reported
`readyState` is `rs` once open. -/
def connectWebSocket (w : PoolWorld) (rs : Option Int) : PoolWorld × Nat :=
  let sock := w.nextSock
  ({w with nextSock := sock + 1, socks := assocSet sock ⟨rs⟩ w.socks}, sock)

/-- The `release` closure a caller receives, identified by the path of
`acquireWebSocket` that produced it together with the data the closure
captured (socket id, or session id + entry id). -/
inductive ReleaseFn where
  | noSession (sock : Nat)
  | busyOverflow (sock : Nat)
  | reuse (sessionId : String) (eId : Nat)
  | fresh (sessionId : String) (eId : Nat)
deriving DecidableEq

def acquireFresh (w : PoolWorld) (sessionId : String) (rs : Option Int) :
    PoolWorld × Nat × ReleaseFn :=
  let c := connectWebSocket w rs
  let eId := c.1.nextEntry
  let w2 := {c.1 with
    nextEntry := eId + 1,
    entries := assocSet eId ⟨c.2, true, none⟩ c.1.entries,
    cache := assocSet sessionId eId c.1.cache}
  (w2, c.2, ReleaseFn.fresh sessionId eId)

def acquireWebSocket (w : PoolWorld) (sessionId : Option String) (rs : Option Int) :
    PoolWorld × Nat × ReleaseFn :=
  match sessionId with
  | none =>
    let c := connectWebSocket w rs
    (c.1, c.2, ReleaseFn.noSession c.2)
  | some sid =>
    match assocGet sid w.cache with
    | some eId =>
      match assocGet eId w.entries with
      | some cached =>
        let w1 := match cached.idleTimer with
          | some t =>
            let wa := clearTimeout w t
            {wa with entries := assocSet eId {cached with idleTimer := none} wa.entries}
          | none => w
        if !cached.busy && isWebSocketReusable w1 cached.socket then
          let w2 := {w1 with
            entries := assocSet eId {cached with idleTimer := none, busy := true} w1.entries}
          (w2, cached.socket, ReleaseFn.reuse sid eId)
        else if cached.busy then
          let c := connectWebSocket w1 rs
          (c.1, c.2, ReleaseFn.busyOverflow c.2)
        else
          let w2 := closeWebSocketSilently w1 cached.socket 1000 "done"
          let w3 := {w2 with cache := assocRemove sid w2.cache}
          acquireFresh w3 sid rs
      | none => acquireFresh w sid rs
    | none => acquireFresh w sid rs

/-- `release(options)` for each closure shape.  `keep : Option Bool` models
the JS `{keep} = {}` destructuring: `none` is an omitted hint, and the
source tests `!keep` (truthy-negation), i.e. the keep-branch runs only for
`keep === true` and a live `readyState`. -/
def releaseWebSocket (w : PoolWorld) (r : ReleaseFn) (keep : Option Bool) : PoolWorld :=
  match r with
  | .noSession sock =>
    if keep == some false then closeWebSocketSilently w sock 1000 "done"
    else closeWebSocketSilently w sock 1000 "done"
  | .busyOverflow sock => closeWebSocketSilently w sock 1000 "done"
  | .reuse sid eId =>
    match assocGet eId w.entries with
    | none => w
    | some cached =>
      if !(keep == some true) || !(isWebSocketReusable w cached.socket) then
        let w1 := closeWebSocketSilently w cached.socket 1000 "done"
        {w1 with cache := assocRemove sid w1.cache}
      else
        let w1 := {w with entries := assocSet eId {cached with busy := false} w.entries}
        scheduleSessionWebSocketExpiry sid eId w1
  | .fresh sid eId =>
    match assocGet eId w.entries with
    | none => w
    | some entry =>
      if !(keep == some true) || !(isWebSocketReusable w entry.socket) then
        let w1 := closeWebSocketSilently w entry.socket 1000 "done"
        let w2 := match entry.idleTimer with
          | some t => clearTimeout w1 t
          | none => w1
        if assocGet sid w2.cache == some eId then
          {w2 with cache := assocRemove sid w2.cache}
        else w2
      else
        let w1 := {w with entries := assocSet eId {entry with busy := false} w.entries}
        scheduleSessionWebSocketExpiry sid eId w1

/-! ## Connection establishment race (`connectWebSocket` promise body)

The promise body registers `open` / `error` / `close` listeners on the
socket plus an `abort` listener on the signal, guards every handler with a
`settled` flag, and removes all four listeners in `cleanup()` before
settling.  We model the listener-registration state and count how many
handler bodies get past the guard (`branchRuns`). -/

structure ConnSt where
  settled : Bool
  openReg : Bool
  errorReg : Bool
  closeReg : Bool
  abortReg : Bool
  outcome : Option (Option String)
  abortClosedSocket : Bool
  branchRuns : Nat
deriving DecidableEq

inductive ConnSig where
  | opened
  | errored (e : WSErrorEvent)
  | closedSig (e : WSCloseEvent)
  | abortedSig
deriving DecidableEq

/-- Initial state of the promise body: the three socket listeners are
registered, and the abort listener when a signal was supplied. -/
def connInit (hasSignal : Bool) : ConnSt :=
  ⟨false, true, true, true, hasSignal, none, false, 0⟩

/-- Whether the listener for a given signal is currently registered (a
removed listener is never invoked). -/
def sigReg (sig : ConnSig) (s : ConnSt) : Bool :=
  match sig with
  | .opened => s.openReg
  | .errored _ => s.errorReg
  | .closedSig _ => s.closeReg
  | .abortedSig => s.abortReg

/-- `none` models `resolve(socket)`; `some msg` models `reject` with the
given error message. -/
def sigOutcome : ConnSig → Option String
  | .opened => none
  | .errored e => some (extractWebSocketError e)
  | .closedSig e => some (extractWebSocketCloseError e)
  | .abortedSig => some "Request was aborted"

/-- Delivering one signal to the promise body: the handler only runs if its
listener is registered; its body only runs if `settled` is still false, in
which case it sets `settled`, runs `cleanup()` (removing all four
listeners), on abort also calls `socket.close(1000, "aborted")`, and then
settles the promise. -/
def fireConn (s : ConnSt) (sig : ConnSig) : ConnSt :=
  if sigReg sig s = false then s
  else if s.settled then s
  else
    let s1 := {s with settled := true, branchRuns := s.branchRuns + 1}
    let s2 := {s1 with openReg := false, errorReg := false, closeReg := false, abortReg := false}
    let s3 := match sig with
      | .abortedSig => {s2 with abortClosedSocket := true}
      | _ => s2
    {s3 with outcome := some (sigOutcome sig)}

/-! ## Stream decoder (`parseWebSocket` and `decodeWebSocketData`)

A frame's payload is one of the four supported shapes (bytes are abstracted
to the text they decode to; a `view` keeps the source's
`byteOffset`/`byteLength` slicing) or an unsupported value, for which
`decodeWebSocketData` returns `null`.  `JSON.parse` is an external
capability and is passed in as `parse : String → Option WSMessage`; a
`WSMessage` models the parsed record by its `type` field (`none` when the
record has no string `type`) plus an opaque payload tag. -/

inductive WSData where
  | text (s : String)
  | arrayBuffer (s : String)
  | view (buf : String) (byteOffset byteLength : Nat)
  | blobLike (s : String)
  | unsupported
deriving DecidableEq

def decodeWebSocketData : WSData → Option String
  | .text s => some s
  | .arrayBuffer s => some s
  | .view buf off len => some ⟨(buf.data.drop off).take len⟩
  | .blobLike s => some s
  | .unsupported => none

structure WSMessage where
  typeField : Option String
  payload : Nat
deriving DecidableEq

/-- `typeof parsed.type === "string" ? parsed.type : ""` -/
def msgType (m : WSMessage) : String :=
  match m.typeField with
  | some t => t
  | none => ""

def isCompletionType (t : String) : Bool :=
  t == "response.completed" || t == "response.done"

/-- Internal state of the `parseWebSocket` generator.  `aborted` is the
abort signal's state, which the drain loop polls at the top of every
iteration. -/
structure DecSt where
  queue : List WSMessage
  done : Bool
  failed : Option String
  sawCompletion : Bool
  aborted : Bool
deriving DecidableEq

def initSt : DecSt := ⟨[], false, none, false, false⟩

def onMessage (parse : String → Option WSMessage) (data : WSData) (s : DecSt) : DecSt :=
  match decodeWebSocketData data with
  | none => s
  | some text =>
    if text == "" then s
    else
      match parse text with
      | none => s
      | some m =>
        let s1 := if isCompletionType (msgType m) then
            {s with sawCompletion := true, done := true}
          else s
        {s1 with queue := s1.queue ++ [m]}

def onError (e : WSErrorEvent) (s : DecSt) : DecSt :=
  {s with failed := some (extractWebSocketError e), done := true}

def onClose (e : WSCloseEvent) (s : DecSt) : DecSt :=
  if s.sawCompletion then {s with done := true}
  else
    let f := match s.failed with
      | some f0 => some f0
      | none => some (extractWebSocketCloseError e)
    {s with failed := f, done := true}

def onAbort (s : DecSt) : DecSt :=
  {s with failed := some "Request was aborted", done := true, aborted := true}

inductive InEvent where
  | frame (data : WSData)
  | errEv (e : WSErrorEvent)
  | closeEv (e : WSCloseEvent)
  | abortEv
deriving DecidableEq

def handle (parse : String → Option WSMessage) (e : InEvent) (s : DecSt) : DecSt :=
  match e with
  | .frame d => onMessage parse d s
  | .errEv ev => onError ev s
  | .closeEv ev => onClose ev s
  | .abortEv => onAbort s

inductive RunRes where
  | normal
  | errored (msg : String)
deriving DecidableEq

/-- What the generator does after the drain loop breaks: surface the
captured failure, else the ended-before-completion error, else finish
normally. -/
def postLoop (s : DecSt) : RunRes :=
  match s.failed with
  | some e => .errored e
  | none =>
    if s.sawCompletion then .normal
    else .errored "WebSocket stream closed before response.completed"

inductive ConsumeStep where
  | emit (m : WSMessage) (s : DecSt)
  | term (r : RunRes)
  | suspend
deriving DecidableEq

/-- One iteration of the drain loop: check the abort signal first (throwing
immediately when set), then yield the head of the buffer, then break when
`done`, else suspend until the next wake. -/
def consumeStep (s : DecSt) : ConsumeStep :=
  if s.aborted then .term (.errored "Request was aborted")
  else
    match s.queue with
    | m :: rest => .emit m {s with queue := rest}
    | [] => if s.done then .term (postLoop s) else .suspend

def drainFuel : Nat → DecSt → List WSMessage × DecSt × Option RunRes
  | 0, s => ([], s, none)
  | Nat.succ n, s =>
    match consumeStep s with
    | .emit m s1 =>
      let r := drainFuel n s1
      (m :: r.1, r.2.1, r.2.2)
    | .term res => ([], s, some res)
    | .suspend => ([], s, none)

/-- Run the drain loop until it yields everything buffered and either
terminates (`some` result) or suspends waiting for the next event
(`none`).  One unit of fuel per buffered message plus one final check
always suffices, since only `emit` consumes fuel and it shrinks the
buffer. -/
def drainLoop (s : DecSt) : List WSMessage × DecSt × Option RunRes :=
  drainFuel (s.queue.length + 1) s

/-- A step of a decoder run: either a socket/signal event is delivered (its
handler runs atomically) or the consumer executes one drain-loop
iteration. -/
inductive StepItem where
  | ev (e : InEvent)
  | consume
deriving DecidableEq

def eventsOf : List StepItem → List InEvent
  | [] => []
  | .ev e :: rest => e :: eventsOf rest
  | .consume :: rest => eventsOf rest

/-- The message a frame contributes after decode + parse, `none` when the
payload is unsupported, empty, or fails to parse (silently dropped). -/
def frameMsg (parse : String → Option WSMessage) (d : WSData) : Option WSMessage :=
  match decodeWebSocketData d with
  | none => none
  | some t => if t == "" then none else parse t

def eventMsgs (parse : String → Option WSMessage) : InEvent → List WSMessage
  | .frame d => (frameMsg parse d).toList
  | _ => []

/-- The successfully decoded messages of an event sequence, in arrival
order. -/
def decodedFrames (parse : String → Option WSMessage) : List InEvent → List WSMessage
  | [] => []
  | e :: rest => eventMsgs parse e ++ decodedFrames parse rest

/-- The burst schedule: all events are delivered before the consumer is
driven; the consumer then drains to completion. -/
def lazyRun (parse : String → Option WSMessage) (events : List InEvent) :
    List WSMessage × DecSt × Option RunRes :=
  drainLoop (events.foldl (fun s e => handle parse e s) initSt)

/-- The eager schedule: after each event delivery the consumer drains until
it suspends or terminates (it keeps pace with the stream). -/
def eagerRun (parse : String → Option WSMessage) :
    List InEvent → DecSt → List WSMessage × DecSt × Option RunRes
  | [], s => ([], s, none)
  | e :: rest, s =>
    let r := drainLoop (handle parse e s)
    match r.2.2 with
    | some res => (r.1, r.2.1, some res)
    | none =>
      let r2 := eagerRun parse rest r.2.1
      (r.1 ++ r2.1, r2.2.1, r2.2.2)

/-- A concrete stand-in for `JSON.parse` used by counterexamples and
witnesses: two well-formed payloads, everything else malformed. -/
def parse0 : String → Option WSMessage
  | "done" => some ⟨some "response.completed", 0⟩
  | "a" => some ⟨some "response.output_text.delta", 1⟩
  | _ => none

/-! ## Two-phase frame handling

The source's `onMessage` listener is a `void (async () => ...)()` body: it
`await`s `decodeWebSocketData(event.data)` and only then parses, sets the
completion flags and pushes onto the buffer.  The push therefore happens
when the payload decode settles, not when the frame is dispatched, and a
blob-like payload's `arrayBuffer()` settles on a later task than a
subsequent text frame's microtask decode.  The refined run model splits each
frame into a `deliver` step (the message event fires; the decode of its
payload becomes pending) and a `decodeEnd` step (the awaited decode settles;
the rest of the handler — empty-text guard, parse, completion flags, push —
runs).  The scheduler orders `decodeEnd` steps freely, an over-approximation
of the real microtask/task orders that includes them all.  Error, close and
abort handlers are synchronous in the source and stay atomic. -/

structure AsyncSt where
  dec : DecSt
  pending : List (Nat × WSData)
deriving DecidableEq

def asyncInit : AsyncSt := ⟨initSt, []⟩

inductive AsyncEvent where
  | deliver (id : Nat) (data : WSData)
  | decodeEnd (id : Nat)
  | errEv (e : WSErrorEvent)
  | closeEv (e : WSCloseEvent)
  | abortEv
deriving DecidableEq

inductive AsyncStep where
  | ev (e : AsyncEvent)
  | consume
deriving DecidableEq

def asyncHandle (parse : String → Option WSMessage) (e : AsyncEvent) (s : AsyncSt) :
    AsyncSt :=
  match e with
  | .deliver id d => {s with pending := s.pending ++ [(id, d)]}
  | .decodeEnd id =>
    match assocGet id s.pending with
    | none => s
    | some d => ⟨onMessage parse d s.dec, assocRemove id s.pending⟩
  | .errEv ev => {s with dec := onError ev s.dec}
  | .closeEv ev => {s with dec := onClose ev s.dec}
  | .abortEv => {s with dec := onAbort s.dec}

/-- A decoder run over an arbitrary interleaving of frame deliveries, decode
completions, the synchronous error/close/abort handlers, and consumer steps.
Once the consumer terminates, the generator's `finally` has removed all
listeners and the remaining schedule is ignored. -/
def runAsync (parse : String → Option WSMessage) :
    List AsyncStep → AsyncSt → List WSMessage × AsyncSt × Option RunRes
  | [], s => ([], s, none)
  | .ev e :: rest, s => runAsync parse rest (asyncHandle parse e s)
  | .consume :: rest, s =>
    match consumeStep s.dec with
    | .emit m d1 =>
      let r := runAsync parse rest {s with dec := d1}
      (m :: r.1, r.2.1, r.2.2)
    | .term res => ([], s, some res)
    | .suspend => runAsync parse rest s

/-- The messages a schedule pushes onto the buffer, in push (decode-completion)
order, starting from the given pending-decode set. -/
def pushedMsgs (parse : String → Option WSMessage) :
    List AsyncStep → List (Nat × WSData) → List WSMessage
  | [], _ => []
  | .ev (.deliver id d) :: rest, p => pushedMsgs parse rest (p ++ [(id, d)])
  | .ev (.decodeEnd id) :: rest, p =>
    (match assocGet id p with
     | none => pushedMsgs parse rest p
     | some d => (frameMsg parse d).toList ++ pushedMsgs parse rest (assocRemove id p))
  | .ev (.errEv _) :: rest, p => pushedMsgs parse rest p
  | .ev (.closeEv _) :: rest, p => pushedMsgs parse rest p
  | .ev .abortEv :: rest, p => pushedMsgs parse rest p
  | .consume :: rest, p => pushedMsgs parse rest p

/-- The in-order special case: each frame's decode settles immediately after
its delivery, before anything else runs (fresh decode ids from `n`).  This is
the schedule shape in which decode completions occur in frame-arrival
order. -/
def toAsync : List StepItem → Nat → List AsyncStep
  | [], _ => []
  | .ev (.frame d) :: rest, n =>
    .ev (.deliver n d) :: .ev (.decodeEnd n) :: toAsync rest (n + 1)
  | .ev (.errEv e) :: rest, n => .ev (.errEv e) :: toAsync rest n
  | .ev (.closeEv e) :: rest, n => .ev (.closeEv e) :: toAsync rest n
  | .ev .abortEv :: rest, n => .ev .abortEv :: toAsync rest n
  | .consume :: rest, n => .consume :: toAsync rest n

/-! ## Drain-loop lemmas -/

theorem drainFuel_spec (q : List WSMessage) :
    ∀ (n : Nat) (s : DecSt), s.aborted = false → s.queue = q → q.length < n →
      drainFuel n s =
        (q, {s with queue := []}, if s.done = true then some (postLoop s) else none) := by
  induction q with
  | nil =>
    intro n s ha hq hl
    cases n with
    | zero => exact absurd hl (by simp)
    | succ k =>
      obtain ⟨sq, d, f, c, a⟩ := s
      simp only at ha hq
      subst ha; subst hq
      by_cases hd : d = true <;> simp [drainFuel, consumeStep, hd]
  | cons m rest ih =>
    intro n s ha hq hl
    cases n with
    | zero => exact absurd hl (by simp)
    | succ k =>
      obtain ⟨sq, d, f, c, a⟩ := s
      simp only at ha hq
      subst ha; subst hq
      have hrec := ih k ⟨rest, d, f, c, false⟩ rfl rfl (by simpa using hl)
      simp [drainFuel, consumeStep, hrec, postLoop]

theorem drainLoop_spec (s : DecSt) (ha : s.aborted = false) :
    drainLoop s =
      (s.queue, {s with queue := []}, if s.done = true then some (postLoop s) else none) :=
  drainFuel_spec s.queue (s.queue.length + 1) s ha rfl (by omega)

theorem drainLoop_aborted (s : DecSt) (ha : s.aborted = true) :
    drainLoop s = ([], s, some (RunRes.errored "Request was aborted")) := by
  cases hq : s.queue <;> simp [drainLoop, hq, drainFuel, consumeStep, ha]

/-! ## Handler lemmas -/

theorem handle_queue (parse : String → Option WSMessage) (e : InEvent) (s : DecSt) :
    (handle parse e s).queue = s.queue ++ eventMsgs parse e := by
  cases e with
  | frame d =>
    simp only [handle, onMessage, eventMsgs, frameMsg]
    cases hd : decodeWebSocketData d with
    | none => simp
    | some t =>
      by_cases ht : (t == "") = true
      · simp [ht]
      · simp only [ht, Bool.false_eq_true, if_false]
        cases hp : parse t with
        | none => simp
        | some m =>
          by_cases hc : isCompletionType (msgType m) = true <;> simp [hc]
  | errEv e => simp [handle, onError, eventMsgs]
  | closeEv e =>
    simp only [handle, onClose, eventMsgs, List.append_nil]
    by_cases hc : s.sawCompletion = true <;> simp [hc]
  | abortEv => simp [handle, onAbort, eventMsgs]

theorem consumeStep_emit (s : DecSt) (m : WSMessage) (s1 : DecSt)
    (h : consumeStep s = ConsumeStep.emit m s1) : s.queue = m :: s1.queue := by
  unfold consumeStep at h
  by_cases ha : s.aborted = true
  · simp [ha] at h
  · simp only [ha, if_false, Bool.not_eq_true] at h
    cases hq : s.queue with
    | nil =>
      simp only [hq] at h
      by_cases hd : s.done = true <;> simp [hd] at h
    | cons a q =>
      simp only [hq] at h
      cases h
      simp [hq]

/-! ## Run-level lemmas -/

theorem runAsync_yields (parse : String → Option WSMessage) :
    ∀ (sched : List AsyncStep) (s : AsyncSt),
      ∃ l, (runAsync parse sched s).1 ++ l =
        s.dec.queue ++ pushedMsgs parse sched s.pending := by
  intro sched
  induction sched with
  | nil => intro s; exact ⟨s.dec.queue, by simp [runAsync, pushedMsgs]⟩
  | cons step rest ih =>
    intro s
    cases step with
    | ev e =>
      cases e with
      | deliver id d =>
        obtain ⟨l, hl⟩ := ih {s with pending := s.pending ++ [(id, d)]}
        refine ⟨l, ?_⟩
        simp only [runAsync, asyncHandle, pushedMsgs]
        exact hl
      | decodeEnd id =>
        cases hp : assocGet id s.pending with
        | none =>
          obtain ⟨l, hl⟩ := ih s
          refine ⟨l, ?_⟩
          simp only [runAsync, asyncHandle, hp, pushedMsgs]
          exact hl
        | some d =>
          obtain ⟨l, hl⟩ := ih ⟨onMessage parse d s.dec, assocRemove id s.pending⟩
          refine ⟨l, ?_⟩
          simp only [runAsync, asyncHandle, hp, pushedMsgs]
          rw [hl]
          rw [show (onMessage parse d s.dec).queue =
              s.dec.queue ++ eventMsgs parse (InEvent.frame d)
            from handle_queue parse (InEvent.frame d) s.dec]
          simp [eventMsgs, List.append_assoc]
      | errEv ev =>
        obtain ⟨l, hl⟩ := ih {s with dec := onError ev s.dec}
        refine ⟨l, ?_⟩
        simp only [runAsync, asyncHandle, pushedMsgs]
        exact hl
      | closeEv ev =>
        obtain ⟨l, hl⟩ := ih {s with dec := onClose ev s.dec}
        refine ⟨l, ?_⟩
        simp only [runAsync, asyncHandle, pushedMsgs]
        rw [hl]
        rw [show (onClose ev s.dec).queue = s.dec.queue from by
          rw [show (onClose ev s.dec).queue =
              s.dec.queue ++ eventMsgs parse (InEvent.closeEv ev)
            from handle_queue parse (InEvent.closeEv ev) s.dec]
          simp [eventMsgs]]
      | abortEv =>
        obtain ⟨l, hl⟩ := ih {s with dec := onAbort s.dec}
        refine ⟨l, ?_⟩
        simp only [runAsync, asyncHandle, pushedMsgs]
        exact hl
    | consume =>
      cases h : consumeStep s.dec with
      | emit m d1 =>
        obtain ⟨l, hl⟩ := ih {s with dec := d1}
        refine ⟨l, ?_⟩
        simp only [runAsync, h, pushedMsgs, List.cons_append]
        rw [hl, consumeStep_emit s.dec m d1 h]
        simp
      | term r =>
        refine ⟨s.dec.queue ++ pushedMsgs parse rest s.pending, ?_⟩
        simp [runAsync, h, pushedMsgs]
      | suspend =>
        obtain ⟨l, hl⟩ := ih s
        refine ⟨l, ?_⟩
        simpa [runAsync, h, pushedMsgs] using hl

theorem pushedMsgs_toAsync (parse : String → Option WSMessage) :
    ∀ (sched : List StepItem) (n : Nat),
      pushedMsgs parse (toAsync sched n) [] = decodedFrames parse (eventsOf sched) := by
  intro sched
  induction sched with
  | nil => intro n; rfl
  | cons step rest ih =>
    intro n
    cases step with
    | ev e =>
      cases e with
      | frame d =>
        simp only [toAsync, pushedMsgs, eventsOf, decodedFrames, List.nil_append]
        simp [assocGet, assocRemove, ih (n + 1), eventMsgs]
      | errEv ev => simpa [toAsync, pushedMsgs, eventsOf, decodedFrames, eventMsgs] using ih n
      | closeEv ev => simpa [toAsync, pushedMsgs, eventsOf, decodedFrames, eventMsgs] using ih n
      | abortEv => simpa [toAsync, pushedMsgs, eventsOf, decodedFrames, eventMsgs] using ih n
    | consume => simpa [toAsync, pushedMsgs, eventsOf] using ih n

/-! ## Eager-run lemmas -/

theorem onMessage_drop (parse : String → Option WSMessage) (d : WSData) (s : DecSt)
    (h : frameMsg parse d = none) : onMessage parse d s = s := by
  unfold frameMsg at h
  unfold onMessage
  cases hd : decodeWebSocketData d with
  | none => rfl
  | some t =>
    rw [hd] at h
    by_cases ht : (t == "") = true
    · simp [ht]
    · simp only [ht, Bool.false_eq_true, if_false] at h ⊢
      rw [h]

theorem onMessage_push (parse : String → Option WSMessage) (d : WSData) (s : DecSt)
    (m : WSMessage) (h : frameMsg parse d = some m) :
    onMessage parse d s =
      (if isCompletionType (msgType m) = true then
        {s with queue := s.queue ++ [m], done := true, sawCompletion := true}
      else {s with queue := s.queue ++ [m]}) := by
  unfold frameMsg at h
  unfold onMessage
  cases hd : decodeWebSocketData d with
  | none => rw [hd] at h; exact absurd h (by simp)
  | some t =>
    rw [hd] at h
    dsimp only at h ⊢
    by_cases ht : (t == "") = true
    · rw [if_pos ht] at h; exact absurd h (by simp)
    · simp only [ht, Bool.false_eq_true, if_false] at h ⊢
      rw [h]
      by_cases hc : isCompletionType (msgType m) = true <;> simp [hc]

theorem drain_handle_init (parse : String → Option WSMessage) (e : InEvent)
    (h : (drainLoop (handle parse e initSt)).2.2 = none) :
    (drainLoop (handle parse e initSt)).2.1 = initSt := by
  cases e with
  | frame d =>
    cases hm : frameMsg parse d with
    | none =>
      rw [show handle parse (InEvent.frame d) initSt = initSt from onMessage_drop parse d initSt hm]
      decide
    | some m =>
      by_cases hc : isCompletionType (msgType m) = true
      · exfalso
        revert h
        rw [show handle parse (InEvent.frame d) initSt =
            {initSt with queue := [m], done := true, sawCompletion := true} by
          rw [show handle parse (InEvent.frame d) initSt = _ from onMessage_push parse d initSt m hm,
            if_pos hc]
          simp [initSt]]
        rw [drainLoop_spec _ rfl]
        simp
      · rw [show handle parse (InEvent.frame d) initSt = {initSt with queue := [m]} by
          rw [show handle parse (InEvent.frame d) initSt = _ from onMessage_push parse d initSt m hm,
            if_neg hc]
          simp [initSt]]
        rw [drainLoop_spec _ rfl]
        simp [initSt]
  | errEv e =>
    exfalso; revert h
    rw [show handle parse (InEvent.errEv e) initSt =
        {initSt with failed := some (extractWebSocketError e), done := true} from rfl]
    rw [drainLoop_spec _ rfl]
    simp
  | closeEv e =>
    exfalso; revert h
    rw [show handle parse (InEvent.closeEv e) initSt =
        {initSt with failed := some (extractWebSocketCloseError e), done := true} from rfl]
    rw [drainLoop_spec _ rfl]
    simp
  | abortEv =>
    exfalso; revert h
    rw [show handle parse InEvent.abortEv initSt = onAbort initSt from rfl]
    rw [drainLoop_aborted _ rfl]
    simp

theorem eager_state_init (parse : String → Option WSMessage) :
    ∀ (events : List InEvent) (ms : List WSMessage) (s : DecSt),
      eagerRun parse events initSt = (ms, s, none) → s = initSt := by
  intro events
  induction events with
  | nil =>
    intro ms s h
    simp only [eagerRun, Prod.mk.injEq] at h
    exact h.2.1.symm
  | cons e rest ih =>
    intro ms s h
    cases hr : (drainLoop (handle parse e initSt)).2.2 with
    | some res => simp [eagerRun, hr] at h
    | none =>
      simp only [eagerRun, hr] at h
      rw [drain_handle_init parse e hr] at h
      simp only [Prod.mk.injEq] at h
      obtain ⟨-, h2, h3⟩ := h
      have hrun : eagerRun parse rest initSt = ((eagerRun parse rest initSt).1, s, none) := by
        rw [← h2, ← h3]
      exact ih _ s hrun

theorem eagerRun_append (parse : String → Option WSMessage) :
    ∀ (xs ys : List InEvent) (s : DecSt) (ms : List WSMessage) (s1 : DecSt),
      eagerRun parse xs s = (ms, s1, none) →
      eagerRun parse (xs ++ ys) s =
        (ms ++ (eagerRun parse ys s1).1, (eagerRun parse ys s1).2.1,
          (eagerRun parse ys s1).2.2) := by
  intro xs
  induction xs with
  | nil =>
    intro ys s ms s1 h
    simp only [eagerRun, Prod.mk.injEq] at h
    obtain ⟨h1, h2, -⟩ := h
    subst h1; subst h2
    simp
  | cons e rest ih =>
    intro ys s ms s1 h
    cases hr : (drainLoop (handle parse e s)).2.2 with
    | some res => simp [eagerRun, hr] at h
    | none =>
      simp only [List.cons_append, eagerRun, hr] at h ⊢
      simp only [List.append_eq]
      cases h2 : eagerRun parse rest ((drainLoop (handle parse e s)).2.1) with
      | mk ms2 p2 =>
        rw [h2] at h
        simp only [Prod.mk.injEq] at h
        obtain ⟨hm, hs1, hnone⟩ := h
        have hrest : eagerRun parse rest ((drainLoop (handle parse e s)).2.1) =
            (ms2, s1, none) := by
          rw [h2, ← hs1, ← hnone]
        rw [ih ys _ ms2 s1 hrest, ← hm]
        simp

/-! ## Claim C2 -/

/-- C2 (counterexample): the claim "once the decoder yields a completion-marker
message, no message from any later frame is yielded" is false.  When a frame
arrives after the completion frame but before the consumer drains the buffer
(burst delivery), `onMessage` — which has no `done` guard — still enqueues it,
and the drain loop yields everything buffered before breaking: here the run
yields the completion message and then the later frame's message. -/
theorem c2_counterexample :
    (lazyRun parse0 [InEvent.frame (WSData.text "done"), InEvent.frame (WSData.text "a")]).1 =
      [⟨some "response.completed", 0⟩, ⟨some "response.output_text.delta", 1⟩] ∧
    (lazyRun parse0 [InEvent.frame (WSData.text "done"), InEvent.frame (WSData.text "a")]).2.2 =
      some RunRes.normal := by
  decide

/-- C2 (amended): once a completion-marker frame is processed the run
terminates normally — subsequent frames or close events cannot change the
outcome — and, provided the consumer kept pace with the stream (eager
schedule: it drained each delivery before the next event arrived), no message
from any later frame is yielded: the run yields exactly the messages yielded
so far plus the completion message. -/
theorem c2_completion_terminates (parse : String → Option WSMessage)
    (events post : List InEvent) (d : WSData) (m : WSMessage)
    (ms : List WSMessage) (s : DecSt)
    (hrun : eagerRun parse events initSt = (ms, s, none))
    (hm : frameMsg parse d = some m)
    (hc : isCompletionType (msgType m) = true) :
    (eagerRun parse (events ++ InEvent.frame d :: post) initSt).1 = ms ++ [m] ∧
    (eagerRun parse (events ++ InEvent.frame d :: post) initSt).2.2 = some RunRes.normal := by
  have hs := eager_state_init parse events ms s hrun
  subst hs
  rw [eagerRun_append parse events (InEvent.frame d :: post) initSt ms initSt hrun]
  have h1 : handle parse (InEvent.frame d) initSt =
      {initSt with queue := [m], done := true, sawCompletion := true} := by
    rw [show handle parse (InEvent.frame d) initSt = _ from onMessage_push parse d initSt m hm,
      if_pos hc]
    simp [initSt]
  have h2 : drainLoop (handle parse (InEvent.frame d) initSt) =
      ([m], {initSt with done := true, sawCompletion := true}, some RunRes.normal) := by
    rw [h1, drainLoop_spec _ rfl]
    simp [postLoop, initSt]
  have h3 : eagerRun parse (InEvent.frame d :: post) initSt =
      ([m], {initSt with done := true, sawCompletion := true}, some RunRes.normal) := by
    simp only [eagerRun, h2]
  rw [h3]
  simp

/-- C2 (witness): a concrete eager run — one ordinary frame, then the
completion frame, then a further close event — yields exactly the ordinary
message followed by the completion message and ends normally. -/
theorem c2_witness :
    eagerRun parse0 [InEvent.frame (WSData.text "a")] initSt =
      ([⟨some "response.output_text.delta", 1⟩], initSt, none) ∧
    frameMsg parse0 (WSData.text "done") = some ⟨some "response.completed", 0⟩ ∧
    isCompletionType (msgType (⟨some "response.completed", 0⟩ : WSMessage)) = true ∧
    ((eagerRun parse0 ([InEvent.frame (WSData.text "a")] ++
          InEvent.frame (WSData.text "done") :: [InEvent.closeEv ⟨none, none⟩]) initSt).1 =
        [⟨some "response.output_text.delta", 1⟩] ++ [(⟨some "response.completed", 0⟩ : WSMessage)] ∧
      (eagerRun parse0 ([InEvent.frame (WSData.text "a")] ++
          InEvent.frame (WSData.text "done") :: [InEvent.closeEv ⟨none, none⟩]) initSt).2.2 =
        some RunRes.normal) :=
  ⟨by decide, by decide, by decide,
    c2_completion_terminates parse0 [InEvent.frame (WSData.text "a")]
      [InEvent.closeEv ⟨none, none⟩] (WSData.text "done") ⟨some "response.completed", 0⟩
      [⟨some "response.output_text.delta", 1⟩] initSt (by decide) (by decide) (by decide)⟩

/-! ## Claim C3 -/

/-- C3 (counterexample): the claim's first branch — "if a completion marker was
already observed, a close is treated as normal end-of-stream and the sequence
ends without error" — fails when a transport error was captured between the
completion frame and the close: `onError` has no completion guard, so the run
below observes the completion marker, then the error, then the close, and
still surfaces the socket error. -/
theorem c3_counterexample :
    ((([InEvent.frame (WSData.text "done")] : List InEvent).foldl
        (fun s e => handle parse0 e s) initSt).sawCompletion = true) ∧
    (lazyRun parse0 [InEvent.frame (WSData.text "done"), InEvent.errEv ⟨none⟩,
        InEvent.closeEv ⟨none, none⟩]).2.2 = some (RunRes.errored "WebSocket error") := by
  decide

/-- C3 (amended): on a transport close with no failure captured so far: if the
completion marker was already observed the close only sets `done` and the run
ends normally after draining the buffer; otherwise the `PrematureClose` error
built from the event's code/reason is captured and surfaced after the buffer
is drained. -/
theorem c3_close_semantics :
    (∀ (s : DecSt) (e : WSCloseEvent), s.sawCompletion = true → s.failed = none →
        s.aborted = false →
        (drainLoop (onClose e s)).1 = s.queue ∧
        (drainLoop (onClose e s)).2.2 = some RunRes.normal) ∧
    (∀ (s : DecSt) (e : WSCloseEvent), s.sawCompletion = false → s.failed = none →
        s.aborted = false →
        (onClose e s).failed = some (extractWebSocketCloseError e) ∧
        (drainLoop (onClose e s)).1 = s.queue ∧
        (drainLoop (onClose e s)).2.2 =
          some (RunRes.errored (extractWebSocketCloseError e))) := by
  constructor
  · intro s e hc hf ha
    have h1 : onClose e s = {s with done := true} := by simp [onClose, hc]
    rw [h1, drainLoop_spec _ (by simpa using ha)]
    simp [postLoop, hf, hc]
  · intro s e hc hf ha
    have h1 : onClose e s =
        {s with failed := some (extractWebSocketCloseError e), done := true} := by
      simp [onClose, hc, hf]
    rw [h1, drainLoop_spec _ (by simpa using ha)]
    simp [postLoop]

/-- C3 (witness): concrete instances of both close branches — a close after
completion ends normally; a close with code 1006 / reason "abnormal" before
completion surfaces "WebSocket closed 1006 abnormal". -/
theorem c3_witness :
    ((⟨[⟨some "response.completed", 0⟩], true, none, true, false⟩ : DecSt).sawCompletion = true ∧
      (drainLoop (onClose ⟨none, none⟩
          (⟨[⟨some "response.completed", 0⟩], true, none, true, false⟩ : DecSt))).1 =
        [(⟨some "response.completed", 0⟩ : WSMessage)] ∧
      (drainLoop (onClose ⟨none, none⟩
          (⟨[⟨some "response.completed", 0⟩], true, none, true, false⟩ : DecSt))).2.2 =
        some RunRes.normal) ∧
    ((onClose ⟨some 1006, some "abnormal"⟩ initSt).failed =
        some "WebSocket closed 1006 abnormal" ∧
      (drainLoop (onClose ⟨some 1006, some "abnormal"⟩ initSt)).2.2 =
        some (RunRes.errored "WebSocket closed 1006 abnormal")) :=
  ⟨⟨rfl,
    (c3_close_semantics.1 ⟨[⟨some "response.completed", 0⟩], true, none, true, false⟩
      ⟨none, none⟩ rfl rfl rfl).1,
    (c3_close_semantics.1 ⟨[⟨some "response.completed", 0⟩], true, none, true, false⟩
      ⟨none, none⟩ rfl rfl rfl).2⟩,
   by
    have h := c3_close_semantics.2 initSt ⟨some 1006, some "abnormal"⟩ rfl rfl rfl
    exact ⟨by rw [h.1]; decide, by rw [h.2.2]; decide⟩⟩

/-! ## Claim C4 -/

/-- C4 (counterexample): the claim "every message buffered when a failure is
captured is yielded before the error is surfaced" fails for external
cancellation — the drain loop checks `signal?.aborted` before it checks the
buffer, so when an abort fires with a message still buffered the consumer
throws immediately and the buffered message is never yielded. -/
theorem c4_counterexample :
    ((([InEvent.frame (WSData.text "a"), InEvent.abortEv] : List InEvent).foldl
        (fun s e => handle parse0 e s) initSt).queue =
      [⟨some "response.output_text.delta", 1⟩]) ∧
    (lazyRun parse0 [InEvent.frame (WSData.text "a"), InEvent.abortEv]).1 = [] ∧
    (lazyRun parse0 [InEvent.frame (WSData.text "a"), InEvent.abortEv]).2.2 =
      some (RunRes.errored "Request was aborted") := by
  decide

/-- C4 (amended): for transport-error and premature-close failures every
buffered message is drained, in order, before the captured error is surfaced;
for external cancellation the consumer throws the abort error immediately and
the buffer is NOT drained. -/
theorem c4_drain_before_error :
    (∀ (s : DecSt) (e : WSErrorEvent), s.aborted = false →
        (drainLoop (onError e s)).1 = s.queue ∧
        (drainLoop (onError e s)).2.2 =
          some (RunRes.errored (extractWebSocketError e))) ∧
    (∀ (s : DecSt) (e : WSCloseEvent), s.aborted = false → s.failed = none →
        s.sawCompletion = false →
        (drainLoop (onClose e s)).1 = s.queue ∧
        (drainLoop (onClose e s)).2.2 =
          some (RunRes.errored (extractWebSocketCloseError e))) ∧
    (∀ s : DecSt, (drainLoop (onAbort s)).1 = [] ∧
        (drainLoop (onAbort s)).2.2 = some (RunRes.errored "Request was aborted")) := by
  refine ⟨?_, ?_, ?_⟩
  · intro s e ha
    rw [show onError e s = {s with failed := some (extractWebSocketError e), done := true}
        from rfl]
    rw [drainLoop_spec _ (by simpa using ha)]
    simp [postLoop]
  · intro s e ha hf hc
    have h1 : onClose e s =
        {s with failed := some (extractWebSocketCloseError e), done := true} := by
      simp [onClose, hc, hf]
    rw [h1, drainLoop_spec _ (by simpa using ha)]
    simp [postLoop]
  · intro s
    rw [drainLoop_aborted _ (by rfl)]
    exact ⟨rfl, rfl⟩

/-- C4 (witness): concrete instances — an error with one buffered message
drains it before surfacing "WebSocket error"; a premature close drains the
buffer; an abort with one buffered message yields nothing. -/
theorem c4_witness :
    ((drainLoop (onError ⟨none⟩
          (⟨[⟨some "response.output_text.delta", 1⟩], false, none, false, false⟩ : DecSt))).1 =
        [(⟨some "response.output_text.delta", 1⟩ : WSMessage)] ∧
      (drainLoop (onError ⟨none⟩
          (⟨[⟨some "response.output_text.delta", 1⟩], false, none, false, false⟩ : DecSt))).2.2 =
        some (RunRes.errored "WebSocket error")) ∧
    ((drainLoop (onClose ⟨none, none⟩
          (⟨[⟨some "response.output_text.delta", 1⟩], false, none, false, false⟩ : DecSt))).1 =
        [(⟨some "response.output_text.delta", 1⟩ : WSMessage)] ∧
      (drainLoop (onClose ⟨none, none⟩
          (⟨[⟨some "response.output_text.delta", 1⟩], false, none, false, false⟩ : DecSt))).2.2 =
        some (RunRes.errored "WebSocket closed")) ∧
    ((drainLoop (onAbort
          (⟨[⟨some "response.output_text.delta", 1⟩], false, none, false, false⟩ : DecSt))).1 = [] ∧
      (drainLoop (onAbort
          (⟨[⟨some "response.output_text.delta", 1⟩], false, none, false, false⟩ : DecSt))).2.2 =
        some (RunRes.errored "Request was aborted")) :=
  ⟨by
    have h := c4_drain_before_error.1
      ⟨[⟨some "response.output_text.delta", 1⟩], false, none, false, false⟩ ⟨none⟩ rfl
    exact ⟨h.1, by rw [h.2]; decide⟩,
   by
    have h := c4_drain_before_error.2.1
      ⟨[⟨some "response.output_text.delta", 1⟩], false, none, false, false⟩ ⟨none, none⟩
      rfl rfl rfl
    exact ⟨h.1, by rw [h.2]; decide⟩,
   c4_drain_before_error.2.2
    ⟨[⟨some "response.output_text.delta", 1⟩], false, none, false, false⟩⟩

/-! ## Claim C6 -/

/-- C6 (counterexample): the claim "messages are yielded in exactly the order
the frames arrived, for any supported payload shape" is false.  The source's
message listener pushes inside an async body only after awaiting the payload
decode, and a blob-like payload's `arrayBuffer()` settles on a later task
than a following text frame's decode: here frame 0 (blob-like, the
completion payload) arrives before frame 1 (text), frame 1's decode settles
first, and the run yields the later-arrived frame's message first — the
reverse of the arrival-order decode list. -/
theorem c6_counterexample :
    (runAsync parse0 [AsyncStep.ev (AsyncEvent.deliver 0 (WSData.blobLike "done")),
        AsyncStep.ev (AsyncEvent.deliver 1 (WSData.text "a")),
        AsyncStep.ev (AsyncEvent.decodeEnd 1), AsyncStep.ev (AsyncEvent.decodeEnd 0),
        AsyncStep.consume, AsyncStep.consume, AsyncStep.consume] asyncInit).1 =
      [⟨some "response.output_text.delta", 1⟩, ⟨some "response.completed", 0⟩] ∧
    decodedFrames parse0 [InEvent.frame (WSData.blobLike "done"),
        InEvent.frame (WSData.text "a")] =
      [⟨some "response.completed", 0⟩, ⟨some "response.output_text.delta", 1⟩] := by
  decide

/-- C6 (amended): the decoder yields messages in decode-completion (push)
order: under every interleaving of frame deliveries, decode completions,
other events and consumer steps, the yielded list is an in-order initial
segment of the sequence of successfully decoded messages in the order their
payload decodes settled.  When each frame's decode settles before the next
event runs — decode completions in frame-arrival order, the in-order
(`toAsync`) schedules — the yields are an in-order initial segment of the
arrival-order decode list, with no reordering. -/
theorem c6_decode_completion_order :
    (∀ (parse : String → Option WSMessage) (sched : List AsyncStep),
        ∃ l, (runAsync parse sched asyncInit).1 ++ l = pushedMsgs parse sched []) ∧
    (∀ (parse : String → Option WSMessage) (sched : List StepItem) (n : Nat),
        ∃ l, (runAsync parse (toAsync sched n) asyncInit).1 ++ l =
          decodedFrames parse (eventsOf sched)) := by
  constructor
  · intro parse sched
    obtain ⟨l, hl⟩ := runAsync_yields parse sched asyncInit
    exact ⟨l, by simpa [asyncInit, initSt] using hl⟩
  · intro parse sched n
    obtain ⟨l, hl⟩ := runAsync_yields parse (toAsync sched n) asyncInit
    refine ⟨l, ?_⟩
    rw [← pushedMsgs_toAsync parse sched n]
    simpa [asyncInit, initSt] using hl

/-! ## Claim C9 -/

/-- C9: a drain loop that breaks (`done`) with no captured failure and no
completion marker observed surfaces the dedicated "ended before completion"
error rather than ending silently. -/
theorem c9_ended_before_completion (s : DecSt) (ha : s.aborted = false)
    (hf : s.failed = none) (hc : s.sawCompletion = false) (hd : s.done = true) :
    (drainLoop s).1 = s.queue ∧
    (drainLoop s).2.2 =
      some (RunRes.errored "WebSocket stream closed before response.completed") := by
  rw [drainLoop_spec s ha]
  simp [postLoop, hf, hc, hd]

/-- C9 (witness): concrete instance at an empty-buffer done-state with no
failure and no completion marker. -/
theorem c9_witness :
    (drainLoop (⟨[], true, none, false, false⟩ : DecSt)).1 = [] ∧
    (drainLoop (⟨[], true, none, false, false⟩ : DecSt)).2.2 =
      some (RunRes.errored "WebSocket stream closed before response.completed") :=
  c9_ended_before_completion ⟨[], true, none, false, false⟩ rfl rfl rfl rfl

/-! ## Pool lemmas -/

theorem socketClosed_close (w : PoolWorld) (sock : Nat) (code : Int) (reason : String) :
    socketClosed (closeWebSocketSilently w sock code reason) sock = true := by
  simp [socketClosed, closeWebSocketSilently]

/-! ## Claim C1 -/

/-- C1 (counterexample): the claim "release with the `{keep}` hint omitted
behaves as keep=true" is false.  Acquiring a pooled connection for session
"s1" on a fresh world and then calling `release()` with no options closes the
transport, evicts the cache entry and arms no idle timer — the source tests
`!keep`, which is truthy for an omitted hint. -/
theorem c1_counterexample :
    (releaseWebSocket (acquireWebSocket initWorld (some "s1") (some 1)).1
        (acquireWebSocket initWorld (some "s1") (some 1)).2.2 none).cache = [] ∧
    socketClosed (releaseWebSocket (acquireWebSocket initWorld (some "s1") (some 1)).1
        (acquireWebSocket initWorld (some "s1") (some 1)).2.2 none) 0 = true ∧
    (releaseWebSocket (acquireWebSocket initWorld (some "s1") (some 1)).1
        (acquireWebSocket initWorld (some "s1") (some 1)).2.2 none).timers = [] := by
  decide

/-- C1 (amended): for both pooled release paths (reuse of a cached entry and
a freshly inserted entry), calling `release` with the `{keep}` hint omitted
behaves as keep=false: the transport is closed silently, the session's cache
entry is evicted, and no expiry timer is re-armed. -/
theorem c1_release_omitted_closes :
    (∀ (w : PoolWorld) (sid : String) (eId : Nat) (cached : PoolEntry),
        assocGet eId w.entries = some cached →
        socketClosed (releaseWebSocket w (ReleaseFn.reuse sid eId) none) cached.socket = true ∧
        assocGet sid (releaseWebSocket w (ReleaseFn.reuse sid eId) none).cache = none ∧
        (releaseWebSocket w (ReleaseFn.reuse sid eId) none).timers = w.timers) ∧
    (∀ (w : PoolWorld) (sid : String) (eId : Nat) (entry : PoolEntry),
        assocGet eId w.entries = some entry → entry.idleTimer = none →
        assocGet sid w.cache = some eId →
        socketClosed (releaseWebSocket w (ReleaseFn.fresh sid eId) none) entry.socket = true ∧
        assocGet sid (releaseWebSocket w (ReleaseFn.fresh sid eId) none).cache = none ∧
        (releaseWebSocket w (ReleaseFn.fresh sid eId) none).timers = w.timers) := by
  constructor
  · intro w sid eId cached h
    simp only [releaseWebSocket, h]
    simp only [show ((none : Option Bool) == some true) = false from rfl, Bool.not_false,
      Bool.true_or, if_true]
    refine ⟨?_, ?_, rfl⟩
    · exact socketClosed_close w cached.socket 1000 "done"
    · exact assocGet_remove_self sid _
  · intro w sid eId entry h ht hc
    simp only [releaseWebSocket, h, ht]
    simp only [show ((none : Option Bool) == some true) = false from rfl, Bool.not_false,
      Bool.true_or, if_true]
    have hcond : (assocGet sid (closeWebSocketSilently w entry.socket 1000 "done").cache ==
        some eId) = true := by
      simp [closeWebSocketSilently, hc]
    simp only [hcond, if_true]
    refine ⟨?_, ?_, rfl⟩
    · exact socketClosed_close w entry.socket 1000 "done"
    · exact assocGet_remove_self sid _

/-- C1 (witness): a world with one idle reusable cached entry for "s1" and a
world with a freshly inserted busy entry; releasing each with no options
closes the socket, evicts "s1" and leaves no timer armed. -/
theorem c1_witness :
    (socketClosed (releaseWebSocket ⟨1, 1, 0, [(0, ⟨some 1⟩)], [(0, ⟨0, false, none⟩)],
          [("s1", 0)], [], []⟩ (ReleaseFn.reuse "s1" 0) none) 0 = true ∧
      assocGet "s1" (releaseWebSocket ⟨1, 1, 0, [(0, ⟨some 1⟩)], [(0, ⟨0, false, none⟩)],
          [("s1", 0)], [], []⟩ (ReleaseFn.reuse "s1" 0) none).cache = none ∧
      (releaseWebSocket ⟨1, 1, 0, [(0, ⟨some 1⟩)], [(0, ⟨0, false, none⟩)],
          [("s1", 0)], [], []⟩ (ReleaseFn.reuse "s1" 0) none).timers = []) ∧
    (socketClosed (releaseWebSocket ⟨1, 1, 0, [(0, ⟨some 1⟩)], [(0, ⟨0, true, none⟩)],
          [("s1", 0)], [], []⟩ (ReleaseFn.fresh "s1" 0) none) 0 = true ∧
      assocGet "s1" (releaseWebSocket ⟨1, 1, 0, [(0, ⟨some 1⟩)], [(0, ⟨0, true, none⟩)],
          [("s1", 0)], [], []⟩ (ReleaseFn.fresh "s1" 0) none).cache = none ∧
      (releaseWebSocket ⟨1, 1, 0, [(0, ⟨some 1⟩)], [(0, ⟨0, true, none⟩)],
          [("s1", 0)], [], []⟩ (ReleaseFn.fresh "s1" 0) none).timers = []) :=
  ⟨by
    have h := c1_release_omitted_closes.1 ⟨1, 1, 0, [(0, ⟨some 1⟩)],
      [(0, ⟨0, false, none⟩)], [("s1", 0)], [], []⟩ "s1" 0 ⟨0, false, none⟩ (by decide)
    exact h,
   by
    have h := c1_release_omitted_closes.2 ⟨1, 1, 0, [(0, ⟨some 1⟩)],
      [(0, ⟨0, true, none⟩)], [("s1", 0)], [], []⟩ "s1" 0 ⟨0, true, none⟩ (by decide)
      (by decide) (by decide)
    exact h⟩

/-! ## Claim C5 -/

/-- C5: acquiring a session whose cached entry is busy opens a fresh,
independent connection (a newly allocated socket, distinct from the cached
one), returns the unpooled `busyOverflow` release, leaves the cache mapping
untouched, does not change the cached entry's busy state, and that release
closes the fresh connection no matter what options it is called with. -/
theorem c5_busy_concurrent_acquire (w : PoolWorld) (sid : String) (eId : Nat)
    (cached : PoolEntry) (rs : Option Int)
    (hc : assocGet sid w.cache = some eId)
    (he : assocGet eId w.entries = some cached)
    (hb : cached.busy = true)
    (hs : cached.socket < w.nextSock) :
    (acquireWebSocket w (some sid) rs).2.1 = w.nextSock ∧
    (acquireWebSocket w (some sid) rs).2.2 = ReleaseFn.busyOverflow w.nextSock ∧
    (acquireWebSocket w (some sid) rs).2.1 ≠ cached.socket ∧
    (acquireWebSocket w (some sid) rs).1.cache = w.cache ∧
    (assocGet eId (acquireWebSocket w (some sid) rs).1.entries).map PoolEntry.busy =
      some true ∧
    (∀ keep, socketClosed
        (releaseWebSocket (acquireWebSocket w (some sid) rs).1
          (acquireWebSocket w (some sid) rs).2.2 keep)
        w.nextSock = true) := by
  simp only [acquireWebSocket, hc, he]
  cases ht : cached.idleTimer with
  | none =>
    simp only [hb, Bool.not_true, Bool.false_and, Bool.false_eq_true, if_false, if_true,
      connectWebSocket]
    refine ⟨by trivial, by trivial, hs.ne', by trivial, ?_, ?_⟩
    · rw [he]; simp [hb]
    · intro keep
      exact socketClosed_close _ w.nextSock 1000 "done"
  | some t =>
    simp only [hb, Bool.not_true, Bool.false_and, Bool.false_eq_true, if_false, if_true,
      connectWebSocket, clearTimeout]
    refine ⟨by trivial, by trivial, hs.ne', by trivial, ?_, ?_⟩
    · rw [assocGet_set_self]; simp [hb]
    · intro keep
      exact socketClosed_close _ w.nextSock 1000 "done"

/-- C5 (witness): a world with one busy cached entry for "s1": the concurrent
acquire returns a fresh socket (id 1) distinct from the cached socket (id 0),
leaves the cache and the entry's busy flag unchanged, and its release closes
socket 1 for each of the three option shapes. -/
theorem c5_witness :
    assocGet "s1" ([("s1", 0)] : List (String × Nat)) = some 0 ∧
    (⟨(0 : Nat), true, none⟩ : PoolEntry).busy = true ∧
    ((acquireWebSocket ⟨1, 1, 0, [(0, ⟨some 1⟩)], [(0, ⟨0, true, none⟩)], [("s1", 0)], [], []⟩
        (some "s1") (some 1)).2.1 = 1 ∧
      (acquireWebSocket ⟨1, 1, 0, [(0, ⟨some 1⟩)], [(0, ⟨0, true, none⟩)], [("s1", 0)], [], []⟩
        (some "s1") (some 1)).2.2 = ReleaseFn.busyOverflow 1 ∧
      (acquireWebSocket ⟨1, 1, 0, [(0, ⟨some 1⟩)], [(0, ⟨0, true, none⟩)], [("s1", 0)], [], []⟩
        (some "s1") (some 1)).2.1 ≠ (⟨(0 : Nat), true, none⟩ : PoolEntry).socket ∧
      (acquireWebSocket ⟨1, 1, 0, [(0, ⟨some 1⟩)], [(0, ⟨0, true, none⟩)], [("s1", 0)], [], []⟩
        (some "s1") (some 1)).1.cache = [("s1", 0)] ∧
      (assocGet 0 (acquireWebSocket ⟨1, 1, 0, [(0, ⟨some 1⟩)], [(0, ⟨0, true, none⟩)],
          [("s1", 0)], [], []⟩ (some "s1") (some 1)).1.entries).map PoolEntry.busy =
        some true ∧
      (∀ keep, socketClosed
          (releaseWebSocket (acquireWebSocket ⟨1, 1, 0, [(0, ⟨some 1⟩)], [(0, ⟨0, true, none⟩)],
              [("s1", 0)], [], []⟩ (some "s1") (some 1)).1
            (acquireWebSocket ⟨1, 1, 0, [(0, ⟨some 1⟩)], [(0, ⟨0, true, none⟩)],
              [("s1", 0)], [], []⟩ (some "s1") (some 1)).2.2 keep)
          1 = true)) :=
  ⟨by decide, by decide,
    c5_busy_concurrent_acquire ⟨1, 1, 0, [(0, ⟨some 1⟩)], [(0, ⟨0, true, none⟩)],
      [("s1", 0)], [], []⟩ "s1" 0 ⟨0, true, none⟩ (some 1)
      (by decide) (by decide) (by decide) (by decide)⟩

/-! ## Claim C7 -/

theorem acquire_timers_after_clear (w : PoolWorld) (sid : String) (eId : Nat)
    (entry : PoolEntry) (rs : Option Int) (t : Nat)
    (hc : assocGet sid w.cache = some eId) (he : assocGet eId w.entries = some entry)
    (ht : entry.idleTimer = some t) :
    (acquireWebSocket w (some sid) rs).1.timers = assocRemove t w.timers := by
  simp only [acquireWebSocket, hc, he, ht]
  by_cases h1 : (!entry.busy &&
      isWebSocketReusable
        {clearTimeout w t with
          entries := assocSet eId {entry with idleTimer := none} (clearTimeout w t).entries}
        entry.socket) = true
  · simp only [h1, if_true]
    rfl
  · simp only [h1, if_false]
    by_cases h2 : entry.busy = true
    · simp only [h2, if_true, connectWebSocket]
      rfl
    · simp only [h2, if_false, acquireFresh, connectWebSocket, closeWebSocketSilently]
      rfl

/-- C7: the idle-expiry protocol.  (a) When an armed timer fires and its
entry is still idle the transport is closed (silently, with reason
"idle_timeout") and the session's cache key is removed.  (b) Re-acquiring
the session before the timer fires cancels the pending timer, so a later
firing of that handle is a no-op and the connection is not closed early.
(c) Arming a timer on an entry that already holds one first cancels the old
handle and installs exactly one fresh handle. -/
theorem c7_idle_expiry_protocol :
    (∀ (w : PoolWorld) (t : Nat) (sid : String) (eId : Nat) (entry : PoolEntry),
        assocGet t w.timers = some (sid, eId) →
        assocGet eId w.entries = some entry →
        entry.busy = false →
        socketClosed (fireIdleTimer w t) entry.socket = true ∧
        assocGet sid (fireIdleTimer w t).cache = none) ∧
    (∀ (w : PoolWorld) (sid : String) (eId : Nat) (entry : PoolEntry) (rs : Option Int)
        (t : Nat),
        assocGet sid w.cache = some eId →
        assocGet eId w.entries = some entry →
        entry.idleTimer = some t →
        assocGet t (acquireWebSocket w (some sid) rs).1.timers = none ∧
        fireIdleTimer (acquireWebSocket w (some sid) rs).1 t =
          (acquireWebSocket w (some sid) rs).1) ∧
    (∀ (w : PoolWorld) (sid : String) (eId : Nat) (entry : PoolEntry) (t : Nat),
        assocGet eId w.entries = some entry →
        entry.idleTimer = some t →
        t < w.nextTimer →
        assocGet t (scheduleSessionWebSocketExpiry sid eId w).timers = none ∧
        assocGet w.nextTimer (scheduleSessionWebSocketExpiry sid eId w).timers =
          some (sid, eId)) := by
  refine ⟨?_, ?_, ?_⟩
  · intro w t sid eId entry htm he hb
    simp only [fireIdleTimer, htm, clearTimeout]
    have he2 : assocGet eId
        ({w with timers := assocRemove t w.timers} : PoolWorld).entries = some entry := he
    simp only [he2, hb, Bool.false_eq_true, if_false]
    exact ⟨socketClosed_close _ entry.socket 1000 "idle_timeout",
      assocGet_remove_self sid _⟩
  · intro w sid eId entry rs t hc he ht
    have htimers := acquire_timers_after_clear w sid eId entry rs t hc he ht
    have hnone : assocGet t (acquireWebSocket w (some sid) rs).1.timers = none := by
      rw [htimers]; exact assocGet_remove_self t _
    exact ⟨hnone, by simp [fireIdleTimer, hnone]⟩
  · intro w sid eId entry t he ht hlt
    simp only [scheduleSessionWebSocketExpiry, he, ht, clearTimeout]
    constructor
    · rw [assocGet_set_ne t w.nextTimer (sid, eId) _ (by omega)]
      exact assocGet_remove_self t _
    · exact assocGet_set_self w.nextTimer (sid, eId) _

/-- C7 (witness): a world with one idle cached entry for "s1" whose timer
handle 0 is armed: firing it closes socket 0 and evicts "s1"; acquiring
"s1" first cancels handle 0 so a later firing is a no-op; re-arming via
`scheduleSessionWebSocketExpiry` cancels handle 0 and installs handle 1. -/
theorem c7_witness :
    (socketClosed (fireIdleTimer ⟨1, 1, 1, [(0, ⟨some 1⟩)], [(0, ⟨0, false, some 0⟩)],
          [("s1", 0)], [(0, ("s1", 0))], []⟩ 0) 0 = true ∧
      assocGet "s1" (fireIdleTimer ⟨1, 1, 1, [(0, ⟨some 1⟩)], [(0, ⟨0, false, some 0⟩)],
          [("s1", 0)], [(0, ("s1", 0))], []⟩ 0).cache = none) ∧
    (assocGet 0 (acquireWebSocket ⟨1, 1, 1, [(0, ⟨some 1⟩)], [(0, ⟨0, false, some 0⟩)],
          [("s1", 0)], [(0, ("s1", 0))], []⟩ (some "s1") (some 1)).1.timers = none ∧
      fireIdleTimer (acquireWebSocket ⟨1, 1, 1, [(0, ⟨some 1⟩)], [(0, ⟨0, false, some 0⟩)],
          [("s1", 0)], [(0, ("s1", 0))], []⟩ (some "s1") (some 1)).1 0 =
        (acquireWebSocket ⟨1, 1, 1, [(0, ⟨some 1⟩)], [(0, ⟨0, false, some 0⟩)],
          [("s1", 0)], [(0, ("s1", 0))], []⟩ (some "s1") (some 1)).1) ∧
    (assocGet 0 (scheduleSessionWebSocketExpiry "s1" 0 ⟨1, 1, 1, [(0, ⟨some 1⟩)],
          [(0, ⟨0, false, some 0⟩)], [("s1", 0)], [(0, ("s1", 0))], []⟩).timers = none ∧
      assocGet 1 (scheduleSessionWebSocketExpiry "s1" 0 ⟨1, 1, 1, [(0, ⟨some 1⟩)],
          [(0, ⟨0, false, some 0⟩)], [("s1", 0)], [(0, ("s1", 0))], []⟩).timers =
        some ("s1", 0)) :=
  ⟨c7_idle_expiry_protocol.1 ⟨1, 1, 1, [(0, ⟨some 1⟩)], [(0, ⟨0, false, some 0⟩)],
      [("s1", 0)], [(0, ("s1", 0))], []⟩ 0 "s1" 0 ⟨0, false, some 0⟩
      (by decide) (by decide) (by decide),
   c7_idle_expiry_protocol.2.1 ⟨1, 1, 1, [(0, ⟨some 1⟩)], [(0, ⟨0, false, some 0⟩)],
      [("s1", 0)], [(0, ("s1", 0))], []⟩ "s1" 0 ⟨0, false, some 0⟩ (some 1) 0
      (by decide) (by decide) (by decide),
   c7_idle_expiry_protocol.2.2 ⟨1, 1, 1, [(0, ⟨some 1⟩)], [(0, ⟨0, false, some 0⟩)],
      [("s1", 0)], [(0, ("s1", 0))], []⟩ "s1" 0 ⟨0, false, some 0⟩ 0
      (by decide) (by decide) (by decide)⟩

/-! ## Claim C10 -/

/-- C10: the fresh-pooled release's close-and-evict branch deletes the
session's cache key only when the cache still maps that session id to the
very entry this release captured (`websocketSessionCache.get(sessionId) ===
entry`): releasing a stale, already-replaced entry leaves the cache — and in
particular the newer entry cached under the same session id — untouched,
while releasing the still-current entry evicts it. -/
theorem c10_fresh_release_guard :
    (∀ (w : PoolWorld) (sid : String) (eId eId2 : Nat) (entry : PoolEntry)
        (keep : Option Bool),
        assocGet eId w.entries = some entry →
        (!(keep == some true) || !(isWebSocketReusable w entry.socket)) = true →
        assocGet sid w.cache = some eId2 → eId2 ≠ eId →
        (releaseWebSocket w (ReleaseFn.fresh sid eId) keep).cache = w.cache) ∧
    (∀ (w : PoolWorld) (sid : String) (eId : Nat) (entry : PoolEntry)
        (keep : Option Bool),
        assocGet eId w.entries = some entry →
        (!(keep == some true) || !(isWebSocketReusable w entry.socket)) = true →
        assocGet sid w.cache = some eId →
        assocGet sid (releaseWebSocket w (ReleaseFn.fresh sid eId) keep).cache = none) := by
  constructor
  · intro w sid eId eId2 entry keep he hcond hc hne
    simp only [releaseWebSocket, he, hcond, if_true]
    cases ht : entry.idleTimer with
    | none =>
      have hguard : (assocGet sid
          (closeWebSocketSilently w entry.socket 1000 "done").cache == some eId) = false := by
        simp [closeWebSocketSilently, hc, hne]
      simp only [hguard, Bool.false_eq_true, if_false]
      rfl
    | some t =>
      have hguard : (assocGet sid
          (clearTimeout (closeWebSocketSilently w entry.socket 1000 "done") t).cache ==
            some eId) = false := by
        simp [closeWebSocketSilently, clearTimeout, hc, hne]
      simp only [hguard, Bool.false_eq_true, if_false]
      rfl
  · intro w sid eId entry keep he hcond hc
    simp only [releaseWebSocket, he, hcond, if_true]
    cases ht : entry.idleTimer with
    | none =>
      have hguard : (assocGet sid
          (closeWebSocketSilently w entry.socket 1000 "done").cache == some eId) = true := by
        simp [closeWebSocketSilently, hc]
      simp only [hguard, if_true]
      exact assocGet_remove_self sid _
    | some t =>
      have hguard : (assocGet sid
          (clearTimeout (closeWebSocketSilently w entry.socket 1000 "done") t).cache ==
            some eId) = true := by
        simp [closeWebSocketSilently, clearTimeout, hc]
      simp only [hguard, if_true]
      exact assocGet_remove_self sid _

/-- C10 (witness): a world where session "s1" has been re-cached under a
newer entry (id 1) while a release closure for the stale entry (id 0) is
still alive: releasing the stale closure with `keep: false` leaves the
cache mapping "s1" to entry 1; releasing the current entry evicts it. -/
theorem c10_witness :
    ((releaseWebSocket ⟨2, 2, 0, [(0, ⟨some 3⟩), (1, ⟨some 1⟩)],
          [(0, ⟨0, false, none⟩), (1, ⟨1, true, none⟩)], [("s1", 1)], [], []⟩
        (ReleaseFn.fresh "s1" 0) (some false)).cache = [("s1", 1)]) ∧
    (assocGet "s1" (releaseWebSocket ⟨2, 2, 0, [(0, ⟨some 3⟩), (1, ⟨some 1⟩)],
          [(0, ⟨0, false, none⟩), (1, ⟨1, true, none⟩)], [("s1", 1)], [], []⟩
        (ReleaseFn.fresh "s1" 1) (some false)).cache = none) :=
  ⟨by
    have h := c10_fresh_release_guard.1 ⟨2, 2, 0, [(0, ⟨some 3⟩), (1, ⟨some 1⟩)],
      [(0, ⟨0, false, none⟩), (1, ⟨1, true, none⟩)], [("s1", 1)], [], []⟩
      "s1" 0 1 ⟨0, false, none⟩ (some false) (by decide) (by decide) (by decide) (by decide)
    exact h,
   c10_fresh_release_guard.2 ⟨2, 2, 0, [(0, ⟨some 3⟩), (1, ⟨some 1⟩)],
      [(0, ⟨0, false, none⟩), (1, ⟨1, true, none⟩)], [("s1", 1)], [], []⟩
      "s1" 1 ⟨1, true, none⟩ (some false) (by decide) (by decide) (by decide)⟩

/-! ## Claim C8 -/

/-- The state of the promise body after its first settlement on `sig`. -/
def settledConn (sig : ConnSig) : ConnSt :=
  ⟨true, false, false, false, false, some (sigOutcome sig),
    match sig with | .abortedSig => true | _ => false, 1⟩

theorem fireConn_connInit (sig : ConnSig) :
    fireConn (connInit true) sig = settledConn sig := by
  cases sig <;> rfl

theorem fireConn_settled (s0 : ConnSig) (sig : ConnSig) :
    fireConn (settledConn s0) sig = settledConn s0 := by
  cases sig <;> rfl

theorem foldl_fireConn_settled (s0 : ConnSig) (rest : List ConnSig) :
    rest.foldl fireConn (settledConn s0) = settledConn s0 := by
  induction rest with
  | nil => rfl
  | cons x xs ih => rw [List.foldl_cons, fireConn_settled s0 x]; exact ih

/-- C8: for every interleaving of the four signals (a first signal followed
by arbitrarily many more), exactly one settlement branch executes
(`branchRuns = 1`), the first signal to fire determines the outcome, later
firings are no-ops, and on settlement all four listeners — the three socket
listeners and the abort listener — are deregistered regardless of which
branch won. -/
theorem c8_settle_once (first : ConnSig) (rest : List ConnSig) :
    (rest.foldl fireConn (fireConn (connInit true) first)).settled = true ∧
    (rest.foldl fireConn (fireConn (connInit true) first)).branchRuns = 1 ∧
    (rest.foldl fireConn (fireConn (connInit true) first)).openReg = false ∧
    (rest.foldl fireConn (fireConn (connInit true) first)).errorReg = false ∧
    (rest.foldl fireConn (fireConn (connInit true) first)).closeReg = false ∧
    (rest.foldl fireConn (fireConn (connInit true) first)).abortReg = false ∧
    (rest.foldl fireConn (fireConn (connInit true) first)).outcome =
      some (sigOutcome first) := by
  rw [fireConn_connInit, foldl_fireConn_settled]
  exact ⟨rfl, rfl, rfl, rfl, rfl, rfl, rfl⟩

end PiMono
